import Mathlib

/-!
Shallow embedding of the worksheet problem generators of the repository
(`Addition_and_Subtraction_Practice.py` and `generator.py`), together with
theorems settling the spec claims about them.

Python's global pseudo-random generator is modelled as an explicit state
`RState`: an infinite stream of raw natural draws plus a cursor. Each call
to `random.randint(lo, hi)` consumes one raw draw `x` and yields
`lo + x % (hi - lo + 1)`, a deterministic value in `[lo, hi]`; ranging over
all streams ranges over all possible outcomes of the Python generator.
-/

namespace PlayPlay

/-- The state of the pseudo-random generator: a stream of raw draws and the
position of the next draw. -/
structure RState where
  stream : Nat → Nat
  pos : Nat

/-- Model of `random.randint(lo, hi)`: consume one raw draw and map it into `[lo, hi]`
(the result is in that interval whenever `lo ≤ hi`). -/
def randint (lo hi : Nat) (s : RState) : Nat × RState :=
  (lo + s.stream s.pos % (hi + 1 - lo), ⟨s.stream, s.pos + 1⟩)

/-- Model of `random.choice(['+', '-'])`: consume one raw draw, pick by parity. -/
def choice_op (s : RState) : String × RState :=
  (if s.stream s.pos % 2 = 0 then "+" else "-", ⟨s.stream, s.pos + 1⟩)

/-- Model of `generate_3digit_operands_addition`: `a = randint(100, 899)`,
`b = randint(100, 999 - a)`. -/
def generate_3digit_operands_addition (s : RState) : (Nat × Nat) × RState :=
  let ra := randint 100 899 s
  let rb := randint 100 (999 - ra.1) ra.2
  ((ra.1, rb.1), rb.2)

/-- Model of `generate_3digit_operands_subtraction`: `a = randint(100, 999)`,
`b = randint(100, a)`. -/
def generate_3digit_operands_subtraction (s : RState) : (Nat × Nat) × RState :=
  let ra := randint 100 999 s
  let rb := randint 100 ra.1 ra.2
  ((ra.1, rb.1), rb.2)

/-- The body of `_carry_count_add`'s `for _ in range(k)` loop:
arguments are remaining iterations, current `a`, current `b`, `carry`, `cnt`. -/
def carry_iter : Nat → Nat → Nat → Nat → Nat → Nat
  | 0, _, _, _, cnt => cnt
  | k + 1, a, b, carry, cnt =>
    if 10 ≤ a % 10 + b % 10 + carry then carry_iter k (a / 10) (b / 10) 1 (cnt + 1)
    else carry_iter k (a / 10) (b / 10) 0 cnt

/-- Model of `_carry_count_add(a, b)`: three-position digit-wise carry simulation. -/
def carry_count_add (a b : Nat) : Nat :=
  carry_iter 3 a b 0 0

/-- The body of `_borrow_count_sub`'s loop. Python computes
`da = a % 10 - borrow`, which can be `-1`, so the comparison is done in `ℤ`. -/
def borrow_iter : Nat → Nat → Nat → Nat → Nat → Nat
  | 0, _, _, _, cnt => cnt
  | k + 1, a, b, borrow, cnt =>
    if (a % 10 : Int) - borrow < (b % 10 : Int) then
      borrow_iter k (a / 10) (b / 10) 1 (cnt + 1)
    else borrow_iter k (a / 10) (b / 10) 0 cnt

/-- Model of `_borrow_count_sub(a, b)`: three-position digit-wise borrow simulation. -/
def borrow_count_sub (a b : Nat) : Nat :=
  borrow_iter 3 a b 0 0

/-- The `for _ in range(2000)` rejection-sampling loop of
`_gen_add_by_difficulty`, with the remaining attempt budget as fuel.
`(none, s)` means the budget was exhausted with final generator state `s`. -/
def gen_add_attempts (tier : String) : Nat → RState → Option (Nat × Nat) × RState
  | 0, s => (none, s)
  | fuel + 1, s =>
    let ra := randint 100 899 s
    let rb := randint 100 (999 - ra.1) ra.2
    let carries := carry_count_add ra.1 rb.1
    if tier = "easy" ∧ carries = 0 then (some (ra.1, rb.1), rb.2)
    else if tier = "medium" ∧ carries = 1 then (some (ra.1, rb.1), rb.2)
    else if tier = "hard" ∧ 2 ≤ carries then (some (ra.1, rb.1), rb.2)
    else gen_add_attempts tier fuel rb.2

/-- Model of `_gen_add_by_difficulty(tier)`: up to 2000 sampling attempts, then the
unconstrained fallback `generate_3digit_operands_addition`. -/
def gen_add_by_difficulty (tier : String) (s : RState) : (Nat × Nat) × RState :=
  match gen_add_attempts tier 2000 s with
  | (some p, s) => (p, s)
  | (none, s) => generate_3digit_operands_addition s

/-- The rejection-sampling loop of `_gen_sub_by_difficulty`. -/
def gen_sub_attempts (tier : String) : Nat → RState → Option (Nat × Nat) × RState
  | 0, s => (none, s)
  | fuel + 1, s =>
    let ra := randint 100 999 s
    let rb := randint 100 ra.1 ra.2
    let borrows := borrow_count_sub ra.1 rb.1
    if tier = "easy" ∧ borrows = 0 then (some (ra.1, rb.1), rb.2)
    else if tier = "medium" ∧ borrows = 1 then (some (ra.1, rb.1), rb.2)
    else if tier = "hard" ∧ 2 ≤ borrows then (some (ra.1, rb.1), rb.2)
    else gen_sub_attempts tier fuel rb.2

/-- Model of `_gen_sub_by_difficulty(tier)`: up to 2000 sampling attempts, then the
unconstrained fallback `generate_3digit_operands_subtraction`. -/
def gen_sub_by_difficulty (tier : String) (s : RState) : (Nat × Nat) × RState :=
  match gen_sub_attempts tier 2000 s with
  | (some p, s) => (p, s)
  | (none, s) => generate_3digit_operands_subtraction s

/-- Python's `round(k / 16)` for a natural `k`. `k / 16` is an exactly
representable dyadic rational, so float `round` is round-half-to-even on the
exact value. -/
def py_round_16th (k : Nat) : Nat :=
  let q := k / 16
  let r := k % 16
  if r < 8 then q
  else if 8 < r then q + 1
  else if q % 2 = 0 then q else q + 1

/-- The tier schedule built at the top of `generate_problems`:
`["easy"]*7 + ["medium"]*7 + ["hard"]*2` when `n >= 16`, otherwise
`e = m = max(0, round(n*7/16))`, `h = max(0, n - e - m)` (the `max(0, ·)` of
the source is Nat truncation here). -/
def tiersFor (n : Nat) : List String :=
  if 16 ≤ n then
    List.replicate 7 "easy" ++ List.replicate 7 "medium" ++ List.replicate 2 "hard"
  else
    let e := py_round_16th (7 * n)
    let m := py_round_16th (7 * n)
    let h := n - e - m
    List.replicate e "easy" ++ List.replicate m "medium" ++ List.replicate h "hard"

/-- The per-tier body of `generate_problems`'s loop: choose `'+'` or `'-'`
uniformly, generate operands for the tier, format `f"{a} {op} {b}"` and pair
it with the integer answer. -/
def generate_problems_go : List String → RState → List (String × Int) × RState
  | [], s => ([], s)
  | tier :: rest, s =>
    let c := choice_op s
    if c.1 = "+" then
      let r := gen_add_by_difficulty tier c.2
      let tail := generate_problems_go rest r.2
      ((toString r.1.1 ++ " + " ++ toString r.1.2, (r.1.1 : Int) + (r.1.2 : Int)) :: tail.1,
        tail.2)
    else
      let r := gen_sub_by_difficulty tier c.2
      let tail := generate_problems_go rest r.2
      ((toString r.1.1 ++ " - " ++ toString r.1.2, (r.1.1 : Int) - (r.1.2 : Int)) :: tail.1,
        tail.2)

/-- Model of `generate_problems(n)`. -/
def generate_problems (n : Nat) (s : RState) : List (String × Int) × RState :=
  generate_problems_go (tiersFor n) s

/-- Model of `random.choice(['+', '-', '*', '/'])` in `generator.py`: consume one raw
draw, pick the index. -/
def choice_op4 (s : RState) : Nat × RState :=
  (s.stream s.pos % 4, ⟨s.stream, s.pos + 1⟩)

/-- One iteration of `generate_operations`'s `while` loop body (`generator.py`):
`none` models the `continue` taken when a sampled product exceeds 100.
Indices 0, 1, 2, 3 are the operators `+`, `-`, `*`, `/` in list order. -/
def gen_op_step (s : RState) : Option String × RState :=
  let c := choice_op4 s
  if c.1 = 0 then
    let ra := randint 1 99 c.2
    let rb := randint 1 (100 - ra.1) ra.2
    (some (toString ra.1 ++ " + " ++ toString rb.1), rb.2)
  else if c.1 = 1 then
    let ra := randint 2 100 c.2
    let rb := randint 1 (ra.1 - 1) ra.2
    (some (toString ra.1 ++ " - " ++ toString rb.1), rb.2)
  else if c.1 = 2 then
    let ra := randint 1 10 c.2
    let rb := randint 1 10 ra.2
    if ra.1 * rb.1 ≤ 100 then (some (toString ra.1 ++ " * " ++ toString rb.1), rb.2)
    else (none, rb.2)
  else
    let rb := randint 1 10 c.2
    let rq := randint 1 10 rb.2
    (some (toString (rb.1 * rq.1) ++ " / " ++ toString rb.1), rq.2)

/-- Model of the `while len(operations) < count` loop of `generate_operations`: `remaining`
counts missing entries; `fuel` bounds loop iterations (by
`gen_op_step_isSome` below the `continue` branch is unreachable, so
`fuel = count` makes this exactly the source's loop). -/
def generate_operations_aux : Nat → Nat → RState → List String × RState
  | _, 0, s => ([], s)
  | 0, _ + 1, s => ([], s)
  | fuel + 1, remaining + 1, s =>
    match gen_op_step s with
    | (some str, s') =>
      let tail := generate_operations_aux fuel remaining s'
      (str :: tail.1, tail.2)
    | (none, s') => generate_operations_aux fuel (remaining + 1) s'

/-- Model of `generate_operations(count)` of `generator.py`. -/
def generate_operations (count : Nat) (s : RState) : List String × RState :=
  generate_operations_aux count count s

/-- Validity of an addition operand pair (spec §3 and §8). -/
def addPairValid (p : Nat × Nat) : Prop :=
  100 ≤ p.1 ∧ p.1 ≤ 999 ∧ 100 ≤ p.2 ∧ p.2 ≤ 999 ∧ p.1 + p.2 ≤ 999

/-- Validity of a subtraction operand pair (spec §3 and §8). -/
def subPairValid (p : Nat × Nat) : Prop :=
  100 ≤ p.2 ∧ p.2 ≤ p.1 ∧ p.1 ≤ 999

theorem randint_le (lo hi : Nat) (s : RState) (h : lo ≤ hi) :
    lo ≤ (randint lo hi s).1 ∧ (randint lo hi s).1 ≤ hi := by
  unfold randint
  refine ⟨Nat.le_add_right _ _, ?_⟩
  have hpos : 0 < hi + 1 - lo := by omega
  have := Nat.mod_lt (s.stream s.pos) hpos
  simp only
  omega

theorem gen3add_valid (s : RState) :
    addPairValid (generate_3digit_operands_addition s).1 := by
  have ha := randint_le 100 899 s (by norm_num)
  have hb := randint_le 100 (999 - (randint 100 899 s).1) (randint 100 899 s).2 (by omega)
  unfold generate_3digit_operands_addition addPairValid
  simp only
  omega

theorem gen3sub_valid (s : RState) :
    subPairValid (generate_3digit_operands_subtraction s).1 := by
  have ha := randint_le 100 999 s (by norm_num)
  have hb := randint_le 100 (randint 100 999 s).1 (randint 100 999 s).2 (by omega)
  unfold generate_3digit_operands_subtraction subPairValid
  simp only
  omega

theorem gen_add_attempts_valid (tier : String) (fuel : Nat) (s : RState)
    (a b : Nat) (s' : RState) (h : gen_add_attempts tier fuel s = (some (a, b), s')) :
    addPairValid (a, b) := by
  induction fuel generalizing s with
  | zero => simp [gen_add_attempts] at h
  | succ fuel ih =>
    have ha := randint_le 100 899 s (by norm_num)
    have hb := randint_le 100 (999 - (randint 100 899 s).1) (randint 100 899 s).2 (by omega)
    unfold gen_add_attempts at h
    simp only at h
    split_ifs at h with h1 h2 h3
    · obtain ⟨h4, h5⟩ := Prod.mk.injEq _ _ _ _ |>.mp h
      obtain ⟨h6, h7⟩ := Prod.mk.injEq _ _ _ _ |>.mp (Option.some.injEq _ _ |>.mp h4)
      unfold addPairValid
      simp only
      omega
    · obtain ⟨h4, h5⟩ := Prod.mk.injEq _ _ _ _ |>.mp h
      obtain ⟨h6, h7⟩ := Prod.mk.injEq _ _ _ _ |>.mp (Option.some.injEq _ _ |>.mp h4)
      unfold addPairValid
      simp only
      omega
    · obtain ⟨h4, h5⟩ := Prod.mk.injEq _ _ _ _ |>.mp h
      obtain ⟨h6, h7⟩ := Prod.mk.injEq _ _ _ _ |>.mp (Option.some.injEq _ _ |>.mp h4)
      unfold addPairValid
      simp only
      omega
    · exact ih _ h

theorem gen_sub_attempts_valid (tier : String) (fuel : Nat) (s : RState)
    (a b : Nat) (s' : RState) (h : gen_sub_attempts tier fuel s = (some (a, b), s')) :
    subPairValid (a, b) := by
  induction fuel generalizing s with
  | zero => simp [gen_sub_attempts] at h
  | succ fuel ih =>
    have ha := randint_le 100 999 s (by norm_num)
    have hb := randint_le 100 (randint 100 999 s).1 (randint 100 999 s).2 (by omega)
    unfold gen_sub_attempts at h
    simp only at h
    split_ifs at h with h1 h2 h3
    · obtain ⟨h4, h5⟩ := Prod.mk.injEq _ _ _ _ |>.mp h
      obtain ⟨h6, h7⟩ := Prod.mk.injEq _ _ _ _ |>.mp (Option.some.injEq _ _ |>.mp h4)
      unfold subPairValid
      simp only
      omega
    · obtain ⟨h4, h5⟩ := Prod.mk.injEq _ _ _ _ |>.mp h
      obtain ⟨h6, h7⟩ := Prod.mk.injEq _ _ _ _ |>.mp (Option.some.injEq _ _ |>.mp h4)
      unfold subPairValid
      simp only
      omega
    · obtain ⟨h4, h5⟩ := Prod.mk.injEq _ _ _ _ |>.mp h
      obtain ⟨h6, h7⟩ := Prod.mk.injEq _ _ _ _ |>.mp (Option.some.injEq _ _ |>.mp h4)
      unfold subPairValid
      simp only
      omega
    · exact ih _ h

theorem gen_add_valid (tier : String) (s : RState) :
    addPairValid (gen_add_by_difficulty tier s).1 := by
  unfold gen_add_by_difficulty
  rcases hE : gen_add_attempts tier 2000 s with ⟨o, s'⟩
  cases o with
  | some p =>
    obtain ⟨a, b⟩ := p
    simpa using gen_add_attempts_valid tier 2000 s a b s' hE
  | none => simpa using gen3add_valid s'

theorem gen_sub_valid (tier : String) (s : RState) :
    subPairValid (gen_sub_by_difficulty tier s).1 := by
  unfold gen_sub_by_difficulty
  rcases hE : gen_sub_attempts tier 2000 s with ⟨o, s'⟩
  cases o with
  | some p =>
    obtain ⟨a, b⟩ := p
    simpa using gen_sub_attempts_valid tier 2000 s a b s' hE
  | none => simpa using gen3sub_valid s'

/-- The tier acceptance condition of the rejection-sampling loops:
`easy` means count 0, `medium` count 1, `hard` count at least 2. -/
def tierOk (tier : String) (c : Nat) : Prop :=
  (tier = "easy" ∧ c = 0) ∨ (tier = "medium" ∧ c = 1) ∨ (tier = "hard" ∧ 2 ≤ c)

theorem gen_add_attempts_tier (tier : String) (fuel : Nat) (s : RState)
    (a b : Nat) (s' : RState) (h : gen_add_attempts tier fuel s = (some (a, b), s')) :
    tierOk tier (carry_count_add a b) := by
  induction fuel generalizing s with
  | zero => simp [gen_add_attempts] at h
  | succ fuel ih =>
    unfold gen_add_attempts at h
    simp only at h
    split_ifs at h with h1 h2 h3
    · obtain ⟨h4, h5⟩ := Prod.mk.injEq _ _ _ _ |>.mp h
      obtain ⟨h6, h7⟩ := Prod.mk.injEq _ _ _ _ |>.mp (Option.some.injEq _ _ |>.mp h4)
      exact Or.inl ⟨h1.1, h6 ▸ h7 ▸ h1.2⟩
    · obtain ⟨h4, h5⟩ := Prod.mk.injEq _ _ _ _ |>.mp h
      obtain ⟨h6, h7⟩ := Prod.mk.injEq _ _ _ _ |>.mp (Option.some.injEq _ _ |>.mp h4)
      exact Or.inr (Or.inl ⟨h2.1, h6 ▸ h7 ▸ h2.2⟩)
    · obtain ⟨h4, h5⟩ := Prod.mk.injEq _ _ _ _ |>.mp h
      obtain ⟨h6, h7⟩ := Prod.mk.injEq _ _ _ _ |>.mp (Option.some.injEq _ _ |>.mp h4)
      exact Or.inr (Or.inr ⟨h3.1, h6 ▸ h7 ▸ h3.2⟩)
    · exact ih _ h

theorem gen_sub_attempts_tier (tier : String) (fuel : Nat) (s : RState)
    (a b : Nat) (s' : RState) (h : gen_sub_attempts tier fuel s = (some (a, b), s')) :
    tierOk tier (borrow_count_sub a b) := by
  induction fuel generalizing s with
  | zero => simp [gen_sub_attempts] at h
  | succ fuel ih =>
    unfold gen_sub_attempts at h
    simp only at h
    split_ifs at h with h1 h2 h3
    · obtain ⟨h4, h5⟩ := Prod.mk.injEq _ _ _ _ |>.mp h
      obtain ⟨h6, h7⟩ := Prod.mk.injEq _ _ _ _ |>.mp (Option.some.injEq _ _ |>.mp h4)
      exact Or.inl ⟨h1.1, h6 ▸ h7 ▸ h1.2⟩
    · obtain ⟨h4, h5⟩ := Prod.mk.injEq _ _ _ _ |>.mp h
      obtain ⟨h6, h7⟩ := Prod.mk.injEq _ _ _ _ |>.mp (Option.some.injEq _ _ |>.mp h4)
      exact Or.inr (Or.inl ⟨h2.1, h6 ▸ h7 ▸ h2.2⟩)
    · obtain ⟨h4, h5⟩ := Prod.mk.injEq _ _ _ _ |>.mp h
      obtain ⟨h6, h7⟩ := Prod.mk.injEq _ _ _ _ |>.mp (Option.some.injEq _ _ |>.mp h4)
      exact Or.inr (Or.inr ⟨h3.1, h6 ▸ h7 ▸ h3.2⟩)
    · exact ih _ h

theorem gen_add_attempts_state (tier : String) (fuel : Nat) (s : RState) :
    (gen_add_attempts tier fuel s).2.stream = s.stream ∧
      (gen_add_attempts tier fuel s).2.pos ≤ s.pos + 2 * fuel := by
  induction fuel generalizing s with
  | zero => simp [gen_add_attempts]
  | succ fuel ih =>
    unfold gen_add_attempts
    simp only
    split_ifs
    · exact ⟨rfl, by simp only [randint]; omega⟩
    · exact ⟨rfl, by simp only [randint]; omega⟩
    · exact ⟨rfl, by simp only [randint]; omega⟩
    · have := ih ((randint 100 (999 - (randint 100 899 s).1) (randint 100 899 s).2).2)
      simp only [randint] at this ⊢
      obtain ⟨h1, h2⟩ := this
      exact ⟨h1, by omega⟩

theorem gen_sub_attempts_state (tier : String) (fuel : Nat) (s : RState) :
    (gen_sub_attempts tier fuel s).2.stream = s.stream ∧
      (gen_sub_attempts tier fuel s).2.pos ≤ s.pos + 2 * fuel := by
  induction fuel generalizing s with
  | zero => simp [gen_sub_attempts]
  | succ fuel ih =>
    unfold gen_sub_attempts
    simp only
    split_ifs
    · exact ⟨rfl, by simp only [randint]; omega⟩
    · exact ⟨rfl, by simp only [randint]; omega⟩
    · exact ⟨rfl, by simp only [randint]; omega⟩
    · have := ih ((randint 100 (randint 100 999 s).1 (randint 100 999 s).2).2)
      simp only [randint] at this ⊢
      obtain ⟨h1, h2⟩ := this
      exact ⟨h1, by omega⟩

theorem gen_add_state (tier : String) (s : RState) :
    (gen_add_by_difficulty tier s).2.stream = s.stream ∧
      (gen_add_by_difficulty tier s).2.pos ≤ s.pos + 2 * 2000 + 2 := by
  have hS := gen_add_attempts_state tier 2000 s
  unfold gen_add_by_difficulty
  rcases hE : gen_add_attempts tier 2000 s with ⟨o, s'⟩
  rw [hE] at hS
  cases o with
  | some p =>
    refine ⟨hS.1, ?_⟩
    show s'.pos ≤ s.pos + 2 * 2000 + 2
    have h2 : s'.pos ≤ s.pos + 2 * 2000 := hS.2
    omega
  | none =>
    refine ⟨hS.1, ?_⟩
    have h2 : s'.pos ≤ s.pos + 2 * 2000 := hS.2
    simp only [generate_3digit_operands_addition, randint]
    omega

theorem gen_sub_state (tier : String) (s : RState) :
    (gen_sub_by_difficulty tier s).2.stream = s.stream ∧
      (gen_sub_by_difficulty tier s).2.pos ≤ s.pos + 2 * 2000 + 2 := by
  have hS := gen_sub_attempts_state tier 2000 s
  unfold gen_sub_by_difficulty
  rcases hE : gen_sub_attempts tier 2000 s with ⟨o, s'⟩
  rw [hE] at hS
  cases o with
  | some p =>
    refine ⟨hS.1, ?_⟩
    show s'.pos ≤ s.pos + 2 * 2000 + 2
    have h2 : s'.pos ≤ s.pos + 2 * 2000 := hS.2
    omega
  | none =>
    refine ⟨hS.1, ?_⟩
    have h2 : s'.pos ≤ s.pos + 2 * 2000 := hS.2
    simp only [generate_3digit_operands_subtraction, randint]
    omega

/-- A raw-draw stream that is constantly zero (used to instantiate witnesses:
with it, `randint lo hi` always yields `lo`). -/
def zeroStream : Nat → Nat := fun _ => 0

/-- Claim C2: every operand pair `(a, b)` returned by the addition generators —
`_gen_add_by_difficulty` for any tier (including its fallback path) and
`generate_3digit_operands_addition` — satisfies `100 ≤ a ≤ 999`,
`100 ≤ b ≤ 999` and `a + b ≤ 999`. -/
theorem addition_pairs_within_bounds (tier : String) (s : RState) :
    addPairValid (gen_add_by_difficulty tier s).1 ∧
      addPairValid (generate_3digit_operands_addition s).1 :=
  ⟨gen_add_valid tier s, gen3add_valid s⟩

/-- Claim C3: every operand pair `(a, b)` returned by the subtraction
generators — `_gen_sub_by_difficulty` for any tier (including its fallback
path) and `generate_3digit_operands_subtraction` — satisfies
`100 ≤ b ≤ a ≤ 999`, hence the result `a - b` is non-negative. -/
theorem subtraction_pairs_within_bounds (tier : String) (s : RState) :
    (subPairValid (gen_sub_by_difficulty tier s).1 ∧
      0 ≤ ((gen_sub_by_difficulty tier s).1.1 : Int) -
        ((gen_sub_by_difficulty tier s).1.2 : Int)) ∧
      (subPairValid (generate_3digit_operands_subtraction s).1 ∧
        0 ≤ ((generate_3digit_operands_subtraction s).1.1 : Int) -
          ((generate_3digit_operands_subtraction s).1.2 : Int)) := by
  have h1 := gen_sub_valid tier s
  have h2 := gen3sub_valid s
  unfold subPairValid at h1 h2 ⊢
  exact ⟨⟨h1, by omega⟩, ⟨h2, by omega⟩⟩

/-- Claim C4: whenever `_gen_add_by_difficulty` or `_gen_sub_by_difficulty`
accepts a candidate pair within the sampling-attempt budget (i.e. the loop
returns it rather than falling through to the fallback), the pair's
carry/borrow count matches the requested tier: exactly 0 for `easy`, exactly
1 for `medium`, at least 2 for `hard`. -/
theorem accepted_pairs_match_tier (tier : String) (fuel : Nat) (s s' : RState)
    (a b : Nat) :
    (gen_add_attempts tier fuel s = (some (a, b), s') →
        tierOk tier (carry_count_add a b)) ∧
      (gen_sub_attempts tier fuel s = (some (a, b), s') →
        tierOk tier (borrow_count_sub a b)) :=
  ⟨gen_add_attempts_tier tier fuel s a b s', gen_sub_attempts_tier tier fuel s a b s'⟩

/-- Witness for claim C4: on the all-zero stream, the easy-tier loops accept
`(100, 100)` on the first attempt, and its carry and borrow counts are 0. -/
theorem accepted_pairs_match_tier_witness :
    tierOk "easy" (carry_count_add 100 100) ∧ tierOk "easy" (borrow_count_sub 100 100) :=
  ⟨(accepted_pairs_match_tier "easy" 2000 ⟨zeroStream, 0⟩ ⟨zeroStream, 2⟩ 100 100).1 rfl,
   (accepted_pairs_match_tier "easy" 2000 ⟨zeroStream, 0⟩ ⟨zeroStream, 2⟩ 100 100).2 rfl⟩

/-- Claim C9: the operand-pair generators are total: for every tier input,
`_gen_add_by_difficulty` and `_gen_sub_by_difficulty` perform at most 2000
sampling attempts (each consuming two raw draws, plus two for the fallback,
so the generator cursor advances by at most `2 * 2000 + 2`) and always return
a pair valid for the operation. -/
theorem tiered_generators_total (tier : String) (s : RState) :
    (addPairValid (gen_add_by_difficulty tier s).1 ∧
      (gen_add_by_difficulty tier s).2.stream = s.stream ∧
      (gen_add_by_difficulty tier s).2.pos ≤ s.pos + 2 * 2000 + 2) ∧
      (subPairValid (gen_sub_by_difficulty tier s).1 ∧
        (gen_sub_by_difficulty tier s).2.stream = s.stream ∧
        (gen_sub_by_difficulty tier s).2.pos ≤ s.pos + 2 * 2000 + 2) :=
  ⟨⟨gen_add_valid tier s, (gen_add_state tier s).1, (gen_add_state tier s).2⟩,
   ⟨gen_sub_valid tier s, (gen_sub_state tier s).1, (gen_sub_state tier s).2⟩⟩

theorem carry_count_add_eq (a b : Nat) :
    carry_count_add a b =
      (if 10 ≤ a % 10 + b % 10 then 1 else 0) +
        (if 100 ≤ a % 100 + b % 100 then 1 else 0) +
        (if 1000 ≤ a % 1000 + b % 1000 then 1 else 0) := by
  have ha2 : a / 10 / 10 = a / 100 := by omega
  have hb2 : b / 10 / 10 = b / 100 := by omega
  have ha3 : a / 100 / 10 = a / 1000 := by omega
  have hb3 : b / 100 / 10 = b / 1000 := by omega
  simp only [carry_count_add, carry_iter, ha2, hb2, ha3, hb3]
  split_ifs <;> omega

/-- Claim C8: `_carry_count_add` is a deterministic (pure, randomness-free)
digit-wise simulation over exactly 3 digit positions: it equals the number of
positions (ones, tens, hundreds) whose digit sum plus incoming carry reaches
10, which is characterized position-independently by `10^(i+1) ≤ a % 10^(i+1)
+ b % 10^(i+1)`; in particular it yields 0 on `(100, 100)` and 1 on
`(150, 150)`. -/
theorem carry_count_is_3_digit_simulation :
    (∀ a b : Nat,
        carry_count_add a b =
          (if 10 ≤ a % 10 + b % 10 then 1 else 0) +
            (if 100 ≤ a % 100 + b % 100 then 1 else 0) +
            (if 1000 ≤ a % 1000 + b % 1000 then 1 else 0)) ∧
      carry_count_add 100 100 = 0 ∧ carry_count_add 150 150 = 1 :=
  ⟨carry_count_add_eq, rfl, rfl⟩

/-- Difficulty rank of a tier name, for stating that a schedule is in
non-decreasing difficulty order. -/
def tierRank (t : String) : Nat :=
  if t = "easy" then 0 else if t = "medium" then 1 else 2

theorem generate_problems_go_length (tiers : List String) (s : RState) :
    (generate_problems_go tiers s).1.length = tiers.length := by
  induction tiers generalizing s with
  | nil => rfl
  | cons t rest ih =>
    unfold generate_problems_go
    simp only
    split_ifs
    · simp [ih]
    · simp [ih]

theorem tiersFor_length (n : Nat) : (tiersFor n).length = min n 16 := by
  by_cases h : 16 ≤ n
  · unfold tiersFor
    rw [if_pos h]
    simp
    omega
  · have h' : n < 16 := by omega
    interval_cases n <;> decide

theorem tiers_replicate_sorted (e m h : Nat) :
    ((List.replicate e "easy" ++ List.replicate m "medium" ++
      List.replicate h "hard").map tierRank).Sorted (· ≤ ·) := by
  have r1 : tierRank "easy" = 0 := rfl
  have r2 : tierRank "medium" = 1 := rfl
  have r3 : tierRank "hard" = 2 := rfl
  simp only [List.map_append, List.map_replicate, r1, r2, r3]
  refine List.pairwise_append.mpr ⟨List.pairwise_append.mpr ⟨?_, ?_, ?_⟩, ?_, ?_⟩
  · exact List.pairwise_replicate.mpr (Or.inr le_rfl)
  · exact List.pairwise_replicate.mpr (Or.inr le_rfl)
  · intro a ha b hb
    rw [List.eq_of_mem_replicate ha, List.eq_of_mem_replicate hb]
    omega
  · exact List.pairwise_replicate.mpr (Or.inr le_rfl)
  · intro a ha b hb
    rw [List.eq_of_mem_replicate hb]
    rcases List.mem_append.mp ha with h1 | h1 <;> rw [List.eq_of_mem_replicate h1] <;> omega

theorem tiersFor_sorted (n : Nat) : ((tiersFor n).map tierRank).Sorted (· ≤ ·) := by
  unfold tiersFor
  by_cases h : 16 ≤ n
  · rw [if_pos h]
    exact tiers_replicate_sorted 7 7 2
  · rw [if_neg h]
    exact tiers_replicate_sorted _ _ _

/-- Counterexample to claim C1 as stated: `generate_problems(17)` does not
return 17 problems — the `n >= 16` branch always builds the fixed 7/7/2
16-entry schedule, so only 16 problems come back. -/
theorem generate_problems_17_not_17_problems :
    ¬ ((generate_problems 17 ⟨zeroStream, 0⟩).1.length = 17) := by
  unfold generate_problems
  rw [generate_problems_go_length]
  decide

/-- Claim C1 (amended): for every `n ≥ 1`, `generate_problems(n)` returns an
ordered sequence of exactly `min n 16` problems (exactly `n` when `n ≤ 16`,
and 16 when `n > 16`), whose tier schedule is in non-decreasing difficulty
order; for `n = 16` the schedule is tier `easy` at indices 0–6, `medium` at
7–13, `hard` at 14–15. -/
theorem generate_problems_count_and_order (n : Nat) (s : RState) :
    (generate_problems n s).1.length = min n 16 ∧
      ((tiersFor n).map tierRank).Sorted (· ≤ ·) ∧
      (∀ i, i < 16 →
        (tiersFor 16).getD i "" =
          if i < 7 then "easy" else if i < 14 then "medium" else "hard") := by
  refine ⟨?_, tiersFor_sorted n, by decide⟩
  unfold generate_problems
  rw [generate_problems_go_length, tiersFor_length]

/-- Counterexample to claim C7 as stated: for `n = 20` (an `n` other than the
canonical 16) the schedule is not the proportional `round(n*7/16)` split —
the claim would give 9 easy entries (`round(140/16) = round(8.75) = 9`), but
the code takes the `n >= 16` branch and builds the fixed 7/7/2 schedule. -/
theorem tiers_proportional_split_cex :
    (tiersFor 20).count "easy" = 7 ∧ py_round_16th (7 * 20) = 9 ∧
      ¬ ((tiersFor 20).count "easy" = py_round_16th (7 * 20)) := by
  decide

/-- Claim C7 (amended): for every `n < 16` (the code's proportional branch),
the tier schedule splits `n` into `easy = medium = round(n*7/16)` (Python
float `round`, i.e. round-half-to-even on the exact dyadic `7n/16`) with the
entire remainder `n - easy - medium` assigned to `hard`; the three parts sum
to `n`. -/
theorem tiers_proportional_split (n : Nat) (h : n < 16) :
    (tiersFor n).count "easy" = py_round_16th (7 * n) ∧
      (tiersFor n).count "medium" = py_round_16th (7 * n) ∧
      (tiersFor n).count "hard" = n - 2 * py_round_16th (7 * n) ∧
      (tiersFor n).length = n := by
  have key : ∀ m, m < 16 →
      (tiersFor m).count "easy" = py_round_16th (7 * m) ∧
        (tiersFor m).count "medium" = py_round_16th (7 * m) ∧
        (tiersFor m).count "hard" = m - 2 * py_round_16th (7 * m) ∧
        (tiersFor m).length = m := by decide
  exact key n h

/-- Witness for claim C7 (amended), at `n = 10`. -/
theorem tiers_proportional_split_witness :
    (tiersFor 10).count "easy" = py_round_16th (7 * 10) ∧
      (tiersFor 10).count "medium" = py_round_16th (7 * 10) ∧
      (tiersFor 10).count "hard" = 10 - 2 * py_round_16th (7 * 10) ∧
      (tiersFor 10).length = 10 :=
  tiers_proportional_split 10 (by decide)

/-- A problem is well formed when its expression string is `"a + b"` with
answer `a + b`, or `"a - b"` with answer `a - b`, for some operands `a, b`. -/
def problemWellFormed (p : String × Int) : Prop :=
  ∃ a b : Nat,
    (p.1 = toString a ++ " + " ++ toString b ∧ p.2 = (a : Int) + (b : Int)) ∨
      (p.1 = toString a ++ " - " ++ toString b ∧ p.2 = (a : Int) - (b : Int))

theorem generate_problems_go_wf (tiers : List String) (s : RState) (p : String × Int)
    (hp : p ∈ (generate_problems_go tiers s).1) : problemWellFormed p := by
  induction tiers generalizing s with
  | nil => simp [generate_problems_go] at hp
  | cons t rest ih =>
    unfold generate_problems_go at hp
    simp only at hp
    split_ifs at hp
    · rcases List.mem_cons.mp hp with h | h
      · subst h
        exact ⟨_, _, Or.inl ⟨rfl, rfl⟩⟩
      · exact ih _ h
    · rcases List.mem_cons.mp hp with h | h
      · subst h
        exact ⟨_, _, Or.inr ⟨rfl, rfl⟩⟩
      · exact ih _ h

/-- Claim C5: every `(expression, answer)` pair in the output of
`generate_problems` is exact: the expression is `"a + b"` with answer `a + b`,
or `"a - b"` with answer `a - b`, for the generated operands `a, b` — so
evaluating the expression string yields exactly the paired integer answer. -/
theorem problems_answers_correct (n : Nat) (s : RState) (p : String × Int)
    (hp : p ∈ (generate_problems n s).1) : problemWellFormed p :=
  generate_problems_go_wf (tiersFor n) s p hp

/-- A stream making the single problem of `generate_problems 1` a hard-tier
addition accepted on the first attempt: `199 + 199`. -/
def demoStream1 : Nat → Nat := fun i => if i = 0 then 0 else 99

/-- Witness for claim C5: the problem produced by `generate_problems 1` on
`demoStream1` is `("199 + 199", 398)`, and it is well formed. -/
theorem problems_answers_correct_witness :
    problemWellFormed ("199 + 199", (398 : Int)) :=
  problems_answers_correct 1 ⟨demoStream1, 0⟩ ("199 + 199", 398) (by decide)

/-- Two generator states that will make the same draws: their streams agree
at every offset from their current positions. Two runs seeded identically
start in this relation. -/
def StreamAgree (s₁ s₂ : RState) : Prop :=
  ∀ i, s₁.stream (s₁.pos + i) = s₂.stream (s₂.pos + i)

theorem streamAgree_randint (lo hi : Nat) (s₁ s₂ : RState) (h : StreamAgree s₁ s₂) :
    (randint lo hi s₁).1 = (randint lo hi s₂).1 ∧
      StreamAgree (randint lo hi s₁).2 (randint lo hi s₂).2 := by
  constructor
  · have h0 := h 0
    simp only [Nat.add_zero] at h0
    simp only [randint, h0]
  · intro i
    have h1 := h (1 + i)
    simp only [randint]
    simpa [Nat.add_assoc] using h1

theorem streamAgree_choice (s₁ s₂ : RState) (h : StreamAgree s₁ s₂) :
    (choice_op s₁).1 = (choice_op s₂).1 ∧
      StreamAgree (choice_op s₁).2 (choice_op s₂).2 := by
  constructor
  · have h0 := h 0
    simp only [Nat.add_zero] at h0
    simp only [choice_op, h0]
  · intro i
    have h1 := h (1 + i)
    simp only [choice_op]
    simpa [Nat.add_assoc] using h1

theorem streamAgree_gen3add (s₁ s₂ : RState) (h : StreamAgree s₁ s₂) :
    (generate_3digit_operands_addition s₁).1 = (generate_3digit_operands_addition s₂).1 ∧
      StreamAgree (generate_3digit_operands_addition s₁).2
        (generate_3digit_operands_addition s₂).2 := by
  obtain ⟨ha1, ha2⟩ := streamAgree_randint 100 899 s₁ s₂ h
  unfold generate_3digit_operands_addition
  simp only
  rw [ha1]
  obtain ⟨hb1, hb2⟩ :=
    streamAgree_randint 100 (999 - (randint 100 899 s₂).1) (randint 100 899 s₁).2
      (randint 100 899 s₂).2 ha2
  rw [hb1]
  exact ⟨rfl, hb2⟩

theorem streamAgree_gen3sub (s₁ s₂ : RState) (h : StreamAgree s₁ s₂) :
    (generate_3digit_operands_subtraction s₁).1 =
        (generate_3digit_operands_subtraction s₂).1 ∧
      StreamAgree (generate_3digit_operands_subtraction s₁).2
        (generate_3digit_operands_subtraction s₂).2 := by
  obtain ⟨ha1, ha2⟩ := streamAgree_randint 100 999 s₁ s₂ h
  unfold generate_3digit_operands_subtraction
  simp only
  rw [ha1]
  obtain ⟨hb1, hb2⟩ :=
    streamAgree_randint 100 (randint 100 999 s₂).1 (randint 100 999 s₁).2
      (randint 100 999 s₂).2 ha2
  rw [hb1]
  exact ⟨rfl, hb2⟩

theorem streamAgree_gen_add_attempts (tier : String) (fuel : Nat) (s₁ s₂ : RState)
    (h : StreamAgree s₁ s₂) :
    (gen_add_attempts tier fuel s₁).1 = (gen_add_attempts tier fuel s₂).1 ∧
      StreamAgree (gen_add_attempts tier fuel s₁).2 (gen_add_attempts tier fuel s₂).2 := by
  induction fuel generalizing s₁ s₂ with
  | zero => exact ⟨rfl, h⟩
  | succ fuel ih =>
    obtain ⟨ha1, ha2⟩ := streamAgree_randint 100 899 s₁ s₂ h
    unfold gen_add_attempts
    simp only
    rw [ha1]
    obtain ⟨hb1, hb2⟩ :=
      streamAgree_randint 100 (999 - (randint 100 899 s₂).1) (randint 100 899 s₁).2
        (randint 100 899 s₂).2 ha2
    rw [hb1]
    split_ifs
    · exact ⟨rfl, hb2⟩
    · exact ⟨rfl, hb2⟩
    · exact ⟨rfl, hb2⟩
    · exact ih _ _ hb2

theorem streamAgree_gen_sub_attempts (tier : String) (fuel : Nat) (s₁ s₂ : RState)
    (h : StreamAgree s₁ s₂) :
    (gen_sub_attempts tier fuel s₁).1 = (gen_sub_attempts tier fuel s₂).1 ∧
      StreamAgree (gen_sub_attempts tier fuel s₁).2 (gen_sub_attempts tier fuel s₂).2 := by
  induction fuel generalizing s₁ s₂ with
  | zero => exact ⟨rfl, h⟩
  | succ fuel ih =>
    obtain ⟨ha1, ha2⟩ := streamAgree_randint 100 999 s₁ s₂ h
    unfold gen_sub_attempts
    simp only
    rw [ha1]
    obtain ⟨hb1, hb2⟩ :=
      streamAgree_randint 100 (randint 100 999 s₂).1 (randint 100 999 s₁).2
        (randint 100 999 s₂).2 ha2
    rw [hb1]
    split_ifs
    · exact ⟨rfl, hb2⟩
    · exact ⟨rfl, hb2⟩
    · exact ⟨rfl, hb2⟩
    · exact ih _ _ hb2

theorem streamAgree_gen_add (tier : String) (s₁ s₂ : RState) (h : StreamAgree s₁ s₂) :
    (gen_add_by_difficulty tier s₁).1 = (gen_add_by_difficulty tier s₂).1 ∧
      StreamAgree (gen_add_by_difficulty tier s₁).2 (gen_add_by_difficulty tier s₂).2 := by
  have hA := streamAgree_gen_add_attempts tier 2000 s₁ s₂ h
  unfold gen_add_by_difficulty
  rcases h1 : gen_add_attempts tier 2000 s₁ with ⟨o₁, t₁⟩
  rcases h2 : gen_add_attempts tier 2000 s₂ with ⟨o₂, t₂⟩
  rw [h1, h2] at hA
  have ho : o₁ = o₂ := hA.1
  have ht : StreamAgree t₁ t₂ := hA.2
  subst ho
  cases o₁ with
  | some p => exact ⟨rfl, ht⟩
  | none => exact streamAgree_gen3add t₁ t₂ ht

theorem streamAgree_gen_sub (tier : String) (s₁ s₂ : RState) (h : StreamAgree s₁ s₂) :
    (gen_sub_by_difficulty tier s₁).1 = (gen_sub_by_difficulty tier s₂).1 ∧
      StreamAgree (gen_sub_by_difficulty tier s₁).2 (gen_sub_by_difficulty tier s₂).2 := by
  have hA := streamAgree_gen_sub_attempts tier 2000 s₁ s₂ h
  unfold gen_sub_by_difficulty
  rcases h1 : gen_sub_attempts tier 2000 s₁ with ⟨o₁, t₁⟩
  rcases h2 : gen_sub_attempts tier 2000 s₂ with ⟨o₂, t₂⟩
  rw [h1, h2] at hA
  have ho : o₁ = o₂ := hA.1
  have ht : StreamAgree t₁ t₂ := hA.2
  subst ho
  cases o₁ with
  | some p => exact ⟨rfl, ht⟩
  | none => exact streamAgree_gen3sub t₁ t₂ ht

theorem streamAgree_go (tiers : List String) (s₁ s₂ : RState) (h : StreamAgree s₁ s₂) :
    (generate_problems_go tiers s₁).1 = (generate_problems_go tiers s₂).1 ∧
      StreamAgree (generate_problems_go tiers s₁).2 (generate_problems_go tiers s₂).2 := by
  induction tiers generalizing s₁ s₂ with
  | nil => exact ⟨rfl, h⟩
  | cons t rest ih =>
    obtain ⟨hc1, hc2⟩ := streamAgree_choice s₁ s₂ h
    unfold generate_problems_go
    simp only
    rw [hc1]
    split_ifs
    · obtain ⟨hg1, hg2⟩ := streamAgree_gen_add t _ _ hc2
      rw [hg1]
      obtain ⟨ht1, ht2⟩ := ih _ _ hg2
      rw [ht1]
      exact ⟨rfl, ht2⟩
    · obtain ⟨hg1, hg2⟩ := streamAgree_gen_sub t _ _ hc2
      rw [hg1]
      obtain ⟨ht1, ht2⟩ := ih _ _ hg2
      rw [ht1]
      exact ⟨rfl, ht2⟩

/-- Claim C6: `generate_problems` is deterministic in the random stream: two
calls whose pseudo-random generator states will produce the same draws (in
particular, two runs from the same seed) return identical output sequences —
same operations, operands and answers at every position. -/
theorem generate_problems_deterministic (n : Nat) (s₁ s₂ : RState)
    (h : ∀ i, s₁.stream (s₁.pos + i) = s₂.stream (s₂.pos + i)) :
    (generate_problems n s₁).1 = (generate_problems n s₂).1 :=
  (streamAgree_go (tiersFor n) s₁ s₂ h).1

/-- Witness for claim C6: two states over the all-zero stream at different
cursors draw identically, so the batches coincide. -/
theorem generate_problems_deterministic_witness :
    (generate_problems 16 ⟨zeroStream, 0⟩).1 = (generate_problems 16 ⟨zeroStream, 5⟩).1 :=
  generate_problems_deterministic 16 ⟨zeroStream, 0⟩ ⟨zeroStream, 5⟩ (fun _ => rfl)

/-- The property claimed of every string produced by `generate_operations`:
it is an arithmetic expression evaluating to a positive integer at most 100 —
`+` with `a + b ≤ 100`, `-` with `b < a ≤ 100`, `*` with `1 ≤ a * b ≤ 100`,
or `/` whose dividend is an exact multiple of the divisor with integer
quotient in `[1, 10]`. -/
def opStringSpec (str : String) : Prop :=
  ∃ a b : Nat,
    (str = toString a ++ " + " ++ toString b ∧ 1 ≤ a ∧ 1 ≤ b ∧ a + b ≤ 100) ∨
      (str = toString a ++ " - " ++ toString b ∧ 1 ≤ b ∧ b < a ∧ a ≤ 100) ∨
      (str = toString a ++ " * " ++ toString b ∧ 1 ≤ a * b ∧ a * b ≤ 100) ∨
      (str = toString a ++ " / " ++ toString b ∧ 1 ≤ b ∧
        ∃ q, a = b * q ∧ 1 ≤ q ∧ q ≤ 10)

theorem gen_op_step_ne_none (s : RState) : (gen_op_step s).1 ≠ none := by
  unfold gen_op_step
  simp only
  split_ifs with h1 h2 h3 h4
  · simp
  · simp
  · simp
  · exfalso
    have ha := randint_le 1 10 (choice_op4 s).2 (by norm_num)
    have hb := randint_le 1 10 (randint 1 10 (choice_op4 s).2).2 (by norm_num)
    exact h4 (by nlinarith [ha.2, hb.2])
  · simp

theorem gen_op_step_spec (s : RState) (str : String) (s' : RState)
    (h : gen_op_step s = (some str, s')) : opStringSpec str := by
  unfold gen_op_step at h
  simp only at h
  split_ifs at h with h1 h2 h3 h4
  · have ha := randint_le 1 99 (choice_op4 s).2 (by norm_num)
    have hb := randint_le 1 (100 - (randint 1 99 (choice_op4 s).2).1)
      (randint 1 99 (choice_op4 s).2).2 (by omega)
    obtain ⟨h5, _⟩ := Prod.mk.injEq _ _ _ _ |>.mp h
    have h6 := Option.some.injEq _ _ |>.mp h5
    exact ⟨_, _, Or.inl ⟨h6.symm, by omega, by omega, by omega⟩⟩
  · have ha := randint_le 2 100 (choice_op4 s).2 (by norm_num)
    have hb := randint_le 1 ((randint 2 100 (choice_op4 s).2).1 - 1)
      (randint 2 100 (choice_op4 s).2).2 (by omega)
    obtain ⟨h5, _⟩ := Prod.mk.injEq _ _ _ _ |>.mp h
    have h6 := Option.some.injEq _ _ |>.mp h5
    exact ⟨_, _, Or.inr (Or.inl ⟨h6.symm, by omega, by omega, by omega⟩)⟩
  · have ha := randint_le 1 10 (choice_op4 s).2 (by norm_num)
    have hb := randint_le 1 10 (randint 1 10 (choice_op4 s).2).2 (by norm_num)
    obtain ⟨h5, _⟩ := Prod.mk.injEq _ _ _ _ |>.mp h
    have h6 := Option.some.injEq _ _ |>.mp h5
    refine ⟨_, _, Or.inr (Or.inr (Or.inl ⟨h6.symm, ?_, h4⟩))⟩
    simpa using Nat.mul_le_mul ha.1 hb.1
  · cases h
  · have hb := randint_le 1 10 (choice_op4 s).2 (by norm_num)
    have hq := randint_le 1 10 (randint 1 10 (choice_op4 s).2).2 (by norm_num)
    obtain ⟨h5, _⟩ := Prod.mk.injEq _ _ _ _ |>.mp h
    have h6 := Option.some.injEq _ _ |>.mp h5
    exact ⟨_, _, Or.inr (Or.inr (Or.inr ⟨h6.symm, by omega,
      ⟨(randint 1 10 (randint 1 10 (choice_op4 s).2).2).1, rfl, by omega, by omega⟩⟩))⟩

theorem generate_operations_aux_spec (fuel : Nat) : ∀ (remaining : Nat) (s : RState),
    remaining ≤ fuel →
      (generate_operations_aux fuel remaining s).1.length = remaining ∧
        ∀ str ∈ (generate_operations_aux fuel remaining s).1, opStringSpec str := by
  induction fuel with
  | zero =>
    intro remaining s hr
    interval_cases remaining
    simp [generate_operations_aux]
  | succ fuel ih =>
    intro remaining s hr
    cases remaining with
    | zero => simp [generate_operations_aux]
    | succ rem =>
      unfold generate_operations_aux
      rcases hstep : gen_op_step s with ⟨o, s'⟩
      cases o with
      | none =>
        exact absurd (by rw [hstep] : (gen_op_step s).1 = none) (gen_op_step_ne_none s)
      | some str =>
        simp only
        obtain ⟨ihl, ihm⟩ := ih rem s' (by omega)
        constructor
        · simp [ihl]
        · intro x hx
          rcases List.mem_cons.mp hx with h | h
          · exact h ▸ gen_op_step_spec s str s' hstep
          · exact ihm x h

/-- Claim C10: `generate_operations(count)` in `generator.py` returns a list
of exactly `count` expression strings, and every string evaluates to a
positive integer at most 100: `+` has `a + b ≤ 100`, `-` has result at least
1, `*` has product at most 100, and `/` has dividend an exact integer
multiple of the divisor with quotient in `[1, 10]`. -/
theorem generate_operations_count_and_range (count : Nat) (s : RState) :
    (generate_operations count s).1.length = count ∧
      ∀ str ∈ (generate_operations count s).1, opStringSpec str :=
  generate_operations_aux_spec count count s le_rfl

end PlayPlay
